import Mathlib

/-!
Verification of the `mm::Allocator` mmap-backed allocator
(`src/mmap_allocator.h`).

The allocator hands out page-rounded blocks backed by a growable file.
Its mutable state is the triple shared by every handle copy:
the backing file (identified by the descriptor `fd_`, with its current
length), the size registry `sizes_` (`std::map<void*, size_t>`), and the
free list `free_blocks_` (`std::map<size_t, std::vector<void*>>`).

Modelling conventions:
* `size_t` arithmetic is `Nat` with an explicit `% 2 ^ 64`; `off_t` is a
  signed 64-bit quantity modelled as `Int` via `toOffT`.
* Addresses (`void*` / `T*`) are modelled as `Int`; `mmap`'s sentinel
  `MAP_FAILED` (`(void*)-1`) is `-1`, and a `NULL` return of `allocate`
  is `Option.none`.
* `std::map` is modelled as an association list with lookup, and
  insert-or-overwrite (`alSet`) for `operator[]` assignment; the
  defaulting read side of `operator[]` (which value-initialises an
  absent entry) is made explicit at each use site, exactly where the
  C++ code performs it.  The source never iterates these maps, so the
  entry order is unobservable.
* The results of the `lseek`/`write`/`mmap` system calls are inputs
  (`GrowOutcome`): the embedding branches on them exactly where the C++
  code checks a return value.  `mmap`'s returned address is an input as
  well; on `mmap` failure the returned value is `MAP_FAILED`, which the
  C++ code does not test.
-/

/-- Association-list lookup, modelling `std::map::find`-style access. -/
def alLookup [DecidableEq α] : List (α × β) → α → Option β
  | [], _ => none
  | (k, v) :: t, a => if a = k then some v else alLookup t a

/-- Lookup with a default, modelling the value-initialising read of
`std::map::operator[]` (absent keys read as a value-initialised `β`:
`0` for `size_t`, `[]` for `std::vector`). -/
def alGetD [DecidableEq α] (m : List (α × β)) (a : α) (d : β) : β :=
  (alLookup m a).getD d

/-- Insert-or-overwrite, modelling assignment through
`std::map::operator[]`. -/
def alSet [DecidableEq α] : List (α × β) → α → β → List (α × β)
  | [], a, b => [(a, b)]
  | (k, v) :: t, a, b =>
    if a = k then (a, b) :: t else (k, v) :: alSet t a b

/-- `2 ^ 64`, the modulus of `size_t` arithmetic. -/
def TWO64 : Nat := 2 ^ 64

/-- Reinterpret a `size_t` bit pattern as a signed `off_t`. -/
def toOffT (x : Nat) : Int :=
  if x < 2 ^ 63 then (x : Int) else (x : Int) - TWO64

/-- `mm::Allocator<T>::allocate`, lines 66-69: round the byte count
`n * sizeof(T)` up to the next multiple of `kPageSize`, in `size_t`
arithmetic (products reduced mod `2 ^ 64`). -/
def roundedSize (pz es n : Nat) : Nat :=
  if n * es % TWO64 % pz ≠ 0 then
    (n * es % TWO64 / pz + 1) * pz % TWO64
  else
    n * es % TWO64

/-- `SizeMap = std::map<void*, size_type>`: address to rounded size. -/
abbrev SizeMap := List (Int × Nat)

/-- `FreeMap = std::map<size_type, std::vector<void*>>`: size class to
stack of freed addresses. -/
abbrev FreeMap := List (Nat × List Int)

/-- The state shared by all copies of one allocator: the backing file's
current length (the file designated by `fd_`) together with the two
shared maps `sizes_` and `free_blocks_`. -/
structure ArenaState where
  fileLen : Nat
  sizes : SizeMap
  free_blocks : FreeMap
deriving DecidableEq, Repr

/-- Results of the system calls issued by one free-list-miss allocation:
whether the second `lseek` and the `write` succeed (the code checks
each), whether `mmap` succeeds (the code does not check), and the
address `mmap` returns when it succeeds. -/
structure GrowOutcome where
  seekOk : Bool
  writeOk : Bool
  mmapOk : Bool
  mmapAddr : Int
deriving DecidableEq, Repr

/-- `MAP_FAILED = (void*)-1`, the value `mmap` returns on failure. -/
def MAP_FAILED : Int := -1

/-- `mm::Allocator<T>::allocate(n)` with `pz = kPageSize` and
`es = sizeof(T)`.  Line-by-line:
round `n * es` up to a page multiple; take a reference to the bucket
`(*free_blocks_)[to_alloc]` (which inserts an empty bucket when the key
is absent); if the bucket is non-empty pop and return its last element;
otherwise read the file end, `lseek` to `to_alloc - 1` past the end
(returning `NULL` on failure), `write` one sentinel byte (returning
`NULL` on failure, extending the file otherwise), then record the
address returned by `mmap` (unchecked, so `MAP_FAILED` on a mapping
failure) in `sizes_` and return it. -/
def allocate (pz es n : Nat) (o : GrowOutcome) (s : ArenaState) :
    Option Int × ArenaState :=
  let to_alloc := roundedSize pz es n
  let vec := alGetD s.free_blocks to_alloc []
  let s1 : ArenaState := { s with free_blocks := alSet s.free_blocks to_alloc vec }
  match vec.getLast? with
  | some addr =>
      (some addr,
        { s1 with free_blocks := alSet s1.free_blocks to_alloc vec.dropLast })
  | none =>
      let previous_end := s1.fileLen
      if o.seekOk = false then (none, s1)
      else
        let pos : Int := (previous_end : Int) + toOffT ((to_alloc + (TWO64 - 1)) % TWO64)
        if o.writeOk = false then (none, s1)
        else
          let s2 : ArenaState := { s1 with fileLen := max s1.fileLen (pos + 1).toNat }
          let addr : Int := if o.mmapOk then o.mmapAddr else MAP_FAILED
          (some addr, { s2 with sizes := alSet s2.sizes addr to_alloc })

/-- `mm::Allocator<T>::deallocate(p, n)`:
`auto to_free = (*sizes_)[(void*)p];` (inserting `0` for an unknown
address) followed by `(*free_blocks_)[to_free].push_back((void*)p);`.
The count argument `n` is ignored by the source. -/
def deallocate (p : Int) (n : Nat) (s : ArenaState) : ArenaState :=
  let to_free := alGetD s.sizes p 0
  let s1 : ArenaState := { s with sizes := alSet s.sizes p to_free }
  let vec := alGetD s1.free_blocks to_free []
  { s1 with free_blocks := alSet s1.free_blocks to_free (vec ++ [p]) }

/-- Free-list consistency: every address sitting in a free-list bucket
has that bucket's size class recorded for it in the size registry.
This holds in every state the allocator itself produces (deallocation
pushes `p` onto the bucket for `(*sizes_)[p]`). -/
def FreeInv (s : ArenaState) : Prop :=
  ∀ kv ∈ s.free_blocks, ∀ p ∈ kv.2, alGetD s.sizes p 0 = kv.1

instance (s : ArenaState) : Decidable (FreeInv s) := by
  unfold FreeInv; infer_instance

/-- One push/pop round trip of a single size class: deallocate `p`
(with some irrelevant count `m`), then allocate the same element count
`n` again. -/
def cycle (pz es n m : Nat) (o : GrowOutcome) (p : Int) (s : ArenaState) :
    Option Int × ArenaState :=
  allocate pz es n o (deallocate p m s)

/-- The state after `k` push/pop round trips of one size class. -/
def cyclesState (pz es n m : Nat) (o : GrowOutcome) (p : Int) :
    Nat → ArenaState → ArenaState
  | 0, s => s
  | k + 1, s => cyclesState pz es n m o p k (cycle pz es n m o p s).2

/-- The state right after `Allocator::New`: freshly truncated file,
empty size registry, empty free list. -/
def initState : ArenaState := ⟨0, [], []⟩

/-- Small-step relation over (arena state, live addresses): one
`allocate` call (successful calls prepend the returned address to the
live list) or one `deallocate` call (which retires the address). -/
inductive Step (pz : Nat) :
    ArenaState × List Int → ArenaState × List Int → Prop
  | allocOk (es n : Nat) (o : GrowOutcome) (s s' : ArenaState) (p : Int)
      (L : List Int) :
      allocate pz es n o s = (some p, s') → Step pz (s, L) (s', p :: L)
  | allocFail (es n : Nat) (o : GrowOutcome) (s s' : ArenaState)
      (L : List Int) :
      allocate pz es n o s = (none, s') → Step pz (s, L) (s', L)
  | dealloc (p : Int) (n : Nat) (s : ArenaState) (L : List Int) :
      Step pz (s, L) (deallocate p n s, L.filter (fun q => q != p))

/-- States reachable from a fresh allocator by allocate/deallocate
calls, paired with the addresses returned and not yet deallocated. -/
def Reachable (pz : Nat) (x : ArenaState × List Int) : Prop :=
  Relation.ReflTransGen (Step pz) (initState, []) x

/-- Registry-completeness invariant: every live address, and every
address in a free-list bucket, has an entry in the size registry. -/
def Recorded (s : ArenaState) (L : List Int) : Prop :=
  (∀ p ∈ L, (alLookup s.sizes p).isSome = true) ∧
  (∀ kv ∈ s.free_blocks, ∀ p ∈ kv.2, (alLookup s.sizes p).isSome = true)

/-! ### Allocator handles, shared state, and the default handle

`mm::Allocator<T>` holds `fd_` plus two `shared_ptr`s; copying a handle
or constructing an `Allocator<T>` from an `Allocator<U>` copies those
three members, so the copies alias one arena/registry/free-list trio.
Handles are modelled as records of the descriptor and two reference
identities into a `World` that stores the shared objects; the element
type is a phantom parameter whose size enters `allocate` as `es`. -/

structure Allocator (T : Type) where
  fd : Int
  sizes_ref : Nat
  free_ref : Nat
deriving DecidableEq, Repr

/-- `operator==(const Allocator<T>&, const Allocator<U>&)`: compares
the underlying file descriptors. -/
def aEq {T U : Type} (a : Allocator T) (b : Allocator U) : Bool :=
  a.fd == b.fd

/-- `operator!=`: `!(a == b)`. -/
def aNe {T U : Type} (a : Allocator T) (b : Allocator U) : Bool :=
  !(aEq a b)

/-- The (implicit, member-wise) copy constructor of `Allocator<T>`. -/
def Allocator.copy {T : Type} (a : Allocator T) : Allocator T :=
  ⟨a.fd, a.sizes_ref, a.free_ref⟩

/-- The converting constructor `Allocator<U>(const Allocator<T>&)`
used by `rebind`: copies `fd_`, `sizes_`, `free_blocks_`. -/
def Allocator.rebindTo {T : Type} (U : Type) (a : Allocator T) :
    Allocator U :=
  ⟨a.fd, a.sizes_ref, a.free_ref⟩

/-- Two handles alias the same arena, size registry and free list. -/
def sameRefs {T U : Type} (a : Allocator T) (b : Allocator U) : Prop :=
  b.fd = a.fd ∧ b.sizes_ref = a.sizes_ref ∧ b.free_ref = a.free_ref

/-- The store of shared objects: per-descriptor file lengths and the
heap-allocated `SizeMap`/`FreeMap` objects, addressed by reference
identity; `nextRef` numbers the identities `new` hands out. -/
structure World where
  files : List (Int × Nat)
  sizeMaps : List (Nat × SizeMap)
  freeMaps : List (Nat × FreeMap)
  nextRef : Nat
deriving DecidableEq, Repr

/-- The arena state a handle observes through its references. -/
def readState {T : Type} (a : Allocator T) (w : World) : ArenaState :=
  ⟨alGetD w.files a.fd 0, alGetD w.sizeMaps a.sizes_ref [],
    alGetD w.freeMaps a.free_ref []⟩

/-- Write an arena state back through a handle's references. -/
def writeState {T : Type} (a : Allocator T) (s : ArenaState) (w : World) :
    World :=
  { w with
    files := alSet w.files a.fd s.fileLen,
    sizeMaps := alSet w.sizeMaps a.sizes_ref s.sizes,
    freeMaps := alSet w.freeMaps a.free_ref s.free_blocks }

/-- `allocate` called through a handle: acts on the shared objects the
handle references. -/
def hAllocate (pz es n : Nat) (o : GrowOutcome) {T : Type}
    (a : Allocator T) (w : World) : Option Int × World :=
  let r := allocate pz es n o (readState a w)
  (r.1, writeState a r.2 w)

/-- `deallocate` called through a handle. -/
def hDeallocate {T : Type} (a : Allocator T) (p : Int) (n : Nat)
    (w : World) : World :=
  writeState a (deallocate p n (readState a w)) w

/-- Process-wide state: the open file descriptors, the files present on
disk, the shared-object store, and the `default_allocator` global slot
(`Allocator<char>`). -/
structure ProcState where
  openFds : List Int
  diskFiles : List String
  world : World
  defaultAllocator : Option (Allocator Char)
deriving DecidableEq, Repr

/-- The default constructor `Allocator()`: copies `fd_`, `sizes_`,
`free_blocks_` out of `*static_cast<Allocator*>(default_allocator)`.
Dereferencing the global while no default handle is active is undefined
behaviour in the source; that case is `none` here. -/
def defaultCtor (T : Type) (ps : ProcState) : Option (Allocator T) :=
  ps.defaultAllocator.map (Allocator.rebindTo T)

/-- `Allocator<char>::New(filename)`: `open(filename, O_RDWR | O_CREAT
| O_TRUNC, 0777)` — `openRes` is the returned descriptor, `-1` on
failure, in which case `New` returns `NULL`.  On success the file is
created/truncated to length zero and a handle over fresh, empty
`SizeMap`/`FreeMap` objects is returned. -/
def allocatorNew (filename : String) (openRes : Int) (ps : ProcState) :
    Option (Allocator Char) × ProcState :=
  if openRes = -1 then (none, ps)
  else
    let w := ps.world
    (some ⟨openRes, w.nextRef, w.nextRef + 1⟩,
      { ps with
        openFds := openRes :: ps.openFds,
        diskFiles :=
          if filename ∈ ps.diskFiles then ps.diskFiles
          else filename :: ps.diskFiles,
        world :=
          { files := alSet w.files openRes 0,
            sizeMaps := alSet w.sizeMaps w.nextRef [],
            freeMaps := alSet w.freeMaps (w.nextRef + 1) [],
            nextRef := w.nextRef + 2 } })

/-- `mm::SetDefault(filename)`: stores `Allocator<char>::New(filename)`
in the `default_allocator` slot. -/
def SetDefault (filename : String) (openRes : Int) (ps : ProcState) :
    ProcState :=
  let r := allocatorNew filename openRes ps
  { r.2 with defaultAllocator := r.1 }

/-- `mm::FreeDefault()`: `delete static_cast<Allocator<char>*>(
default_allocator)`.  The `Allocator` destructor is the implicit one:
it destroys the two `shared_ptr` members (releasing the maps when the
last handle goes) and does nothing to the `int` member `fd_` — no
`close(2)` is ever issued, and no file is unlinked.  The destroyed slot
is modelled as cleared (any later read of it is undefined behaviour in
the source). -/
def FreeDefault (ps : ProcState) : ProcState :=
  { ps with defaultAllocator := none }

/-! ### Concrete states used by witnesses and counterexamples -/

/-- A fully successful growth outcome whose `mmap` returns `100`. -/
def oW : GrowOutcome := ⟨true, true, true, 100⟩

/-- The state after `allocate 4096 1 1 oW initState`. -/
def sW : ArenaState := ⟨4096, [(100, 4096)], [(4096, [])]⟩

/-- Seek and write succeed, `mmap` fails. -/
def oN : GrowOutcome := ⟨true, true, false, 0⟩

/-- The state after a further `allocate 4096 1 0 oN sW`: the zero-byte
request recorded size `0` for `MAP_FAILED`. -/
def sB : ArenaState := ⟨4096, [(100, 4096), (-1, 0)], [(4096, []), (0, [])]⟩

/-- A process before any initialisation. -/
def psInit : ProcState := ⟨[], [], ⟨[], [], [], 0⟩, none⟩

/-- The process state after `SetDefault "test.db"` opened descriptor 3. -/
def psW : ProcState := SetDefault "test.db" 3 psInit

/-- A world holding one arena (descriptor 3, references 0 and 1) whose
registry has the block `100 ↦ 4096`. -/
def wW : World := ⟨[(3, 4096)], [(0, [(100, 4096)])], [(1, [])], 2⟩

/-- A handle on that arena. -/
def aW : Allocator Unit := ⟨3, 0, 1⟩

/-- The same arena viewed through an `Allocator<char>` handle. -/
def dW : Allocator Char := ⟨3, 0, 1⟩

/-! ### Association-list lemmas -/

theorem alLookup_alSet_self [DecidableEq α] (m : List (α × β)) (a : α) (b : β) :
    alLookup (alSet m a b) a = some b := by
  induction m with
  | nil => simp [alSet, alLookup]
  | cons kv t ih =>
    obtain ⟨k, v⟩ := kv
    by_cases h : a = k
    · simp [alSet, alLookup, h]
    · simp [alSet, alLookup, h, ih]

theorem alLookup_alSet_ne [DecidableEq α] (m : List (α × β)) (a c : α) (b : β)
    (h : c ≠ a) : alLookup (alSet m a b) c = alLookup m c := by
  induction m with
  | nil => simp [alSet, alLookup, h]
  | cons kv t ih =>
    obtain ⟨k, v⟩ := kv
    by_cases hk : a = k
    · subst hk
      simp [alSet, alLookup, h]
    · by_cases hc : c = k
      · simp [alSet, alLookup, hk, hc]
      · simp [alSet, alLookup, hk, hc, ih]

theorem alGetD_alSet_self [DecidableEq α] (m : List (α × β)) (a : α) (b d : β) :
    alGetD (alSet m a b) a d = b := by
  simp [alGetD, alLookup_alSet_self]

theorem alGetD_alSet_ne [DecidableEq α] (m : List (α × β)) (a c : α) (b d : β)
    (h : c ≠ a) : alGetD (alSet m a b) c d = alGetD m c d := by
  simp [alGetD, alLookup_alSet_ne m a c b h]

theorem alLookup_mem [DecidableEq α] (m : List (α × β)) (a : α) (b : β)
    (h : alLookup m a = some b) : (a, b) ∈ m := by
  induction m with
  | nil => simp [alLookup] at h
  | cons kv t ih =>
    obtain ⟨k, v⟩ := kv
    by_cases hk : a = k
    · subst hk
      simp [alLookup] at h
      simp [h]
    · simp [alLookup, hk] at h
      exact List.mem_cons_of_mem _ (ih h)

theorem mem_alSet [DecidableEq α] (m : List (α × β)) (a : α) (b : β)
    (kv : α × β) (h : kv ∈ alSet m a b) : kv = (a, b) ∨ kv ∈ m := by
  induction m with
  | nil => simp [alSet] at h; simp [h]
  | cons kv' t ih =>
    obtain ⟨k, v⟩ := kv'
    by_cases hk : a = k
    · subst hk
      simp [alSet] at h
      rcases h with h | h
      · exact Or.inl h
      · exact Or.inr (List.mem_cons_of_mem _ h)
    · simp [alSet, hk] at h
      rcases h with h | h
      · exact Or.inr (by simp [h])
      · rcases ih h with h' | h'
        · exact Or.inl h'
        · exact Or.inr (List.mem_cons_of_mem _ h')

theorem alLookup_isSome_alSet [DecidableEq α] (m : List (α × β)) (a c : α) (b : β)
    (h : (alLookup m c).isSome = true) :
    (alLookup (alSet m a b) c).isSome = true := by
  by_cases hc : c = a
  · subst hc
    simp [alLookup_alSet_self]
  · rw [alLookup_alSet_ne m a c b hc]
    exact h

/-- A non-default read through `alGetD` pins down the stored entry. -/
theorem alGetD_mem_of_mem (m : FreeMap) (k : Nat) (q : Int)
    (h : q ∈ alGetD m k []) : ∃ vec, alLookup m k = some vec ∧ q ∈ vec := by
  unfold alGetD at h
  cases hl : alLookup m k with
  | none => rw [hl] at h; simp at h
  | some vec => rw [hl] at h; exact ⟨vec, rfl, h⟩

theorem getLast?_mem_list (l : List α) (a : α) (h : l.getLast? = some a) :
    a ∈ l := by
  cases l with
  | nil => simp at h
  | cons x t => exact List.mem_of_mem_getLast? h

/-! ### C1: page rounding -/

/-- C1 (amended): for every request whose byte count `n * es` fits
`size_t` with a page to spare (`n * es + pz ≤ 2 ^ 64`, i.e. no overflow
in the rounding computation), the block size used by `allocate` is the
smallest multiple of the page size `≥ n * es`, and a byte count already
a multiple of the page size is left unchanged.  (The unamended claim is
refuted by `c1_counterexample`: with overflow the product wraps
mod `2 ^ 64`.) -/
theorem c1_page_rounding (pz es n : Nat) (hpz : 0 < pz)
    (hno : n * es + pz ≤ TWO64) :
    pz ∣ roundedSize pz es n ∧ n * es ≤ roundedSize pz es n ∧
      (pz ∣ n * es → roundedSize pz es n = n * es) ∧
      ∀ m, pz ∣ m → n * es ≤ m → roundedSize pz es n ≤ m := by
  have hblt : n * es < TWO64 :=
    Nat.lt_of_lt_of_le (Nat.lt_add_of_pos_right hpz) hno
  have hb : n * es % TWO64 = n * es := Nat.mod_eq_of_lt hblt
  unfold roundedSize
  rw [hb]
  by_cases h : n * es % pz = 0
  · rw [if_neg (not_not_intro h)]
    exact ⟨Nat.dvd_of_mod_eq_zero h, le_refl _, fun _ => rfl,
      fun m _ hle => hle⟩
  · rw [if_pos h]
    have h1 : pz * (n * es / pz) + n * es % pz = n * es :=
      Nat.div_add_mod _ _
    have h2 : n * es % pz < pz := Nat.mod_lt _ hpz
    have h3 : 0 < n * es % pz := Nat.pos_of_ne_zero h
    have hA : (n * es / pz + 1) * pz = pz * (n * es / pz) + pz := by ring
    have hble : n * es < (n * es / pz + 1) * pz := by rw [hA]; linarith
    have hlt2 : (n * es / pz + 1) * pz < TWO64 := by rw [hA]; linarith
    rw [Nat.mod_eq_of_lt hlt2]
    refine ⟨dvd_mul_left pz _, le_of_lt hble,
      fun hd => absurd
        (by obtain ⟨c, hc⟩ := hd; rw [hc]; exact Nat.mul_mod_right pz c) h,
      ?_⟩
    intro m hm hle
    obtain ⟨k, hk⟩ := hm
    subst hk
    rcases le_or_lt (n * es / pz + 1) k with hqk | hqk
    · calc (n * es / pz + 1) * pz = pz * (n * es / pz + 1) := mul_comm _ _
        _ ≤ pz * k := Nat.mul_le_mul (le_refl pz) hqk
    · exfalso
      have hk2 : k ≤ n * es / pz := Nat.lt_succ_iff.mp hqk
      have hmul : pz * k ≤ pz * (n * es / pz) :=
        Nat.mul_le_mul (le_refl pz) hk2
      linarith

/-- C1 counterexample: requesting `2 ^ 62` elements of size 4 wraps the
`size_t` product `2 ^ 64` to `0`, so the block size is `0`, not the
smallest page multiple `≥ 2 ^ 64`. -/
theorem c1_counterexample :
    roundedSize 4096 4 (2 ^ 62) = 0 ∧
      ¬ 2 ^ 62 * 4 ≤ roundedSize 4096 4 (2 ^ 62) := by decide

/-- Witness for `c1_page_rounding` at `pz = 4096`, `es = 4`, `n = 10`. -/
theorem c1_witness :
    (0 < 4096 ∧ 10 * 4 + 4096 ≤ TWO64) ∧
      (4096 ∣ roundedSize 4096 4 10 ∧ 10 * 4 ≤ roundedSize 4096 4 10 ∧
        (4096 ∣ 10 * 4 → roundedSize 4096 4 10 = 10 * 4) ∧
        ∀ m, 4096 ∣ m → 10 * 4 ≤ m → roundedSize 4096 4 10 ≤ m) :=
  ⟨⟨by decide, by decide⟩,
    c1_page_rounding 4096 4 10 (by decide) (by decide)⟩

/-! ### C4, C5, C10 -/

/-- C4: deallocating an address never recorded in the size registry
does not fail: the `operator[]` lookup silently yields the
value-initialised size `0`, the address is pushed onto the free-list
bucket for size class `0`, and a registry entry `p ↦ 0` is created. -/
theorem c4_untracked_deallocate (s : ArenaState) (p : Int) (n : Nat)
    (h : alLookup s.sizes p = none) :
    alGetD (deallocate p n s).free_blocks 0 [] =
      alGetD s.free_blocks 0 [] ++ [p] ∧
    alLookup (deallocate p n s).sizes p = some 0 := by
  have hg : alGetD s.sizes p 0 = 0 := by simp [alGetD, h]
  have hd : deallocate p n s =
      { fileLen := s.fileLen, sizes := alSet s.sizes p (alGetD s.sizes p 0),
        free_blocks := alSet s.free_blocks (alGetD s.sizes p 0)
          (alGetD s.free_blocks (alGetD s.sizes p 0) [] ++ [p]) } := rfl
  rw [hd, hg]
  exact ⟨alGetD_alSet_self _ _ _ _, alLookup_alSet_self _ _ _⟩

/-- Witness for `c4_untracked_deallocate`: deallocating the never
allocated address `7` on a fresh allocator. -/
theorem c4_witness :
    alLookup initState.sizes 7 = none ∧
      (alGetD (deallocate 7 3 initState).free_blocks 0 [] =
          alGetD initState.free_blocks 0 [] ++ [7] ∧
        alLookup (deallocate 7 3 initState).sizes 7 = some 0) :=
  ⟨by decide, c4_untracked_deallocate initState 7 3 (by decide)⟩

/-- C5: two handles, over possibly different element types, compare
equal exactly when their file descriptors coincide, and `operator!=`
is the exact negation of `operator==`. -/
theorem c5_handle_equality {T U : Type} (a : Allocator T)
    (b : Allocator U) :
    (aEq a b = true ↔ a.fd = b.fd) ∧
      (aNe a b = true ↔ aEq a b = false) := by
  constructor
  · simp [aEq]
  · cases h : aEq a b <;> simp [aNe, h]

/-- C10: the count argument of `deallocate` is ignored; the resulting
state depends only on the address and the prior state. -/
theorem c10_count_ignored (p : Int) (n1 n2 : Nat) (s : ArenaState) :
    deallocate p n1 s = deallocate p n2 s := rfl

/-! ### Shape lemmas: the four branches of `allocate` -/

/-- Free-list hit: `allocate` pops and returns the bucket's last
address, touching neither the registry nor the file. -/
theorem allocate_hit (pz es n : Nat) (o : GrowOutcome) (s : ArenaState) (p : Int)
    (hl : (alGetD s.free_blocks (roundedSize pz es n) []).getLast? = some p) :
    allocate pz es n o s = (some p,
      { s with free_blocks :=
          (alSet (alSet s.free_blocks (roundedSize pz es n)
              (alGetD s.free_blocks (roundedSize pz es n) []))
            (roundedSize pz es n)
            (alGetD s.free_blocks (roundedSize pz es n) []).dropLast) }) := by
  simp only [allocate]
  rw [hl]

/-- Free-list miss with a failing `lseek`: `allocate` returns `NULL`;
only `operator[]`'s bucket insertion has happened. -/
theorem allocate_miss_seek (pz es n : Nat) (o : GrowOutcome) (s : ArenaState)
    (h0 : (alGetD s.free_blocks (roundedSize pz es n) []).getLast? = none)
    (hs : o.seekOk = false) :
    allocate pz es n o s = (none,
      { s with free_blocks :=
          (alSet s.free_blocks (roundedSize pz es n)
            (alGetD s.free_blocks (roundedSize pz es n) [])) }) := by
  simp only [allocate]
  rw [h0, hs]
  simp

/-- Free-list miss with a failing `write`: `allocate` returns `NULL`;
only `operator[]`'s bucket insertion has happened. -/
theorem allocate_miss_write (pz es n : Nat) (o : GrowOutcome) (s : ArenaState)
    (h0 : (alGetD s.free_blocks (roundedSize pz es n) []).getLast? = none)
    (hs : o.seekOk = true) (hw : o.writeOk = false) :
    allocate pz es n o s = (none,
      { s with free_blocks :=
          (alSet s.free_blocks (roundedSize pz es n)
            (alGetD s.free_blocks (roundedSize pz es n) [])) }) := by
  simp only [allocate]
  rw [h0, hs, hw]
  simp

/-- Free-list miss with seek and write succeeding: the file is
extended, and whatever `mmap` returned (`MAP_FAILED` included, as the
source does not check) is recorded in the registry and returned. -/
theorem allocate_grow (pz es n : Nat) (o : GrowOutcome) (s : ArenaState)
    (h0 : (alGetD s.free_blocks (roundedSize pz es n) []).getLast? = none)
    (hs : o.seekOk = true) (hw : o.writeOk = true) :
    allocate pz es n o s = (some (if o.mmapOk then o.mmapAddr else MAP_FAILED),
      { fileLen :=
          (max s.fileLen
            (((s.fileLen : Int) +
              toOffT ((roundedSize pz es n + (TWO64 - 1)) % TWO64) + 1).toNat)),
        sizes :=
          (alSet s.sizes (if o.mmapOk then o.mmapAddr else MAP_FAILED)
            (roundedSize pz es n)),
        free_blocks :=
          (alSet s.free_blocks (roundedSize pz es n)
            (alGetD s.free_blocks (roundedSize pz es n) [])) }) := by
  simp only [allocate]
  rw [h0, hs, hw]
  simp

/-- A successful `allocate` leaves the returned address mapped to the
rounded size in the registry: the grow path just recorded it, and the
reuse path relies on free-list consistency (`FreeInv`). -/
theorem allocate_sizes (pz es n : Nat) (o : GrowOutcome) (s s' : ArenaState)
    (p : Int) (hinv : FreeInv s) (h : allocate pz es n o s = (some p, s')) :
    alGetD s'.sizes p 0 = roundedSize pz es n := by
  cases hv : (alGetD s.free_blocks (roundedSize pz es n) []).getLast? with
  | some addr =>
      rw [allocate_hit pz es n o s addr hv] at h
      simp only [Prod.mk.injEq, Option.some.injEq] at h
      obtain ⟨h1, h2⟩ := h
      subst h2
      rw [h1] at hv
      obtain ⟨vec0, hl, hm⟩ := alGetD_mem_of_mem s.free_blocks
        (roundedSize pz es n) p (getLast?_mem_list _ _ hv)
      exact hinv (roundedSize pz es n, vec0) (alLookup_mem _ _ _ hl) p hm
  | none =>
      cases hs : o.seekOk with
      | false =>
          rw [allocate_miss_seek pz es n o s hv hs] at h
          simp at h
      | true =>
          cases hw : o.writeOk with
          | false =>
              rw [allocate_miss_write pz es n o s hv hs hw] at h
              simp at h
          | true =>
              rw [allocate_grow pz es n o s hv hs hw] at h
              simp only [Prod.mk.injEq, Option.some.injEq] at h
              obtain ⟨h1, h2⟩ := h
              subst h2
              rw [h1]
              exact alGetD_alSet_self _ _ _ _

/-- Deallocating `p` (whose registry entry is the rounded size of the
request) and allocating the same count again pops `p` right back:
the call returns `p`, leaves the file length unchanged, and keeps the
registry entry for `p`, which is what lets the round trip repeat. -/
theorem cycle_hit (pz es n m : Nat) (o : GrowOutcome) (p : Int)
    (s : ArenaState) (hp : alGetD s.sizes p 0 = roundedSize pz es n) :
    (cycle pz es n m o p s).1 = some p ∧
    (cycle pz es n m o p s).2.fileLen = s.fileLen ∧
    alGetD (cycle pz es n m o p s).2.sizes p 0 = roundedSize pz es n := by
  have hd : deallocate p m s =
      { fileLen := s.fileLen,
        sizes := (alSet s.sizes p (roundedSize pz es n)),
        free_blocks :=
          (alSet s.free_blocks (roundedSize pz es n)
            (alGetD s.free_blocks (roundedSize pz es n) [] ++ [p])) } := by
    simp only [deallocate, hp]
  have hl : (alGetD (ArenaState.free_blocks
      { fileLen := s.fileLen,
        sizes := (alSet s.sizes p (roundedSize pz es n)),
        free_blocks :=
          (alSet s.free_blocks (roundedSize pz es n)
            (alGetD s.free_blocks (roundedSize pz es n) [] ++ [p])) })
      (roundedSize pz es n) []).getLast? = some p := by
    dsimp only
    rw [alGetD_alSet_self]
    exact List.getLast?_concat _
  have ha := allocate_hit pz es n o _ p hl
  unfold cycle
  rw [hd, ha]
  refine ⟨rfl, rfl, ?_⟩
  show alGetD (alSet s.sizes p (roundedSize pz es n)) p 0 = roundedSize pz es n
  exact alGetD_alSet_self _ _ _ _

/-! ### C2: LIFO reuse -/

/-- C2: starting from a free-list-consistent state, after `allocate`
returns `p`, every push/pop round trip of that size class (deallocate
`p`, allocate the same count) returns exactly `p` again and leaves the
backing file's length at its value right after the first allocation —
for any number `k` of repetitions, so the reuse holds transitively. -/
theorem c2_lifo_reuse (pz es n m k : Nat) (o oR : GrowOutcome)
    (s s1 : ArenaState) (p : Int) (hinv : FreeInv s)
    (halloc : allocate pz es n o s = (some p, s1)) :
    (cycle pz es n m oR p (cyclesState pz es n m oR p k s1)).1 = some p ∧
    (cycle pz es n m oR p (cyclesState pz es n m oR p k s1)).2.fileLen
      = s1.fileLen := by
  have base : alGetD s1.sizes p 0 = roundedSize pz es n :=
    allocate_sizes pz es n o s s1 p hinv halloc
  have main : ∀ j s2, alGetD s2.sizes p 0 = roundedSize pz es n →
      alGetD (cyclesState pz es n m oR p j s2).sizes p 0
          = roundedSize pz es n ∧
        (cyclesState pz es n m oR p j s2).fileLen = s2.fileLen := by
    intro j
    induction j with
    | zero => intro s2 h2; exact ⟨h2, rfl⟩
    | succ j ih =>
        intro s2 h2
        have hc := cycle_hit pz es n m oR p s2 h2
        have hstep : cyclesState pz es n m oR p (j + 1) s2
            = cyclesState pz es n m oR p j (cycle pz es n m oR p s2).2 := rfl
        rw [hstep]
        obtain ⟨ha, hb⟩ := ih (cycle pz es n m oR p s2).2 hc.2.2
        exact ⟨ha, hb.trans hc.2.1⟩
  obtain ⟨hq, hfl⟩ := main k s1 base
  have hc := cycle_hit pz es n m oR p _ hq
  exact ⟨hc.1, hc.2.1.trans hfl⟩

/-- Witness for `c2_lifo_reuse`: one fresh page-sized allocation at
address 100, then a second push/pop round trip (`k = 1`). -/
theorem c2_witness :
    (FreeInv initState ∧ allocate 4096 1 1 oW initState = (some 100, sW)) ∧
      ((cycle 4096 1 1 0 oW 100 (cyclesState 4096 1 1 0 oW 100 1 sW)).1
          = some 100 ∧
        (cycle 4096 1 1 0 oW 100 (cyclesState 4096 1 1 0 oW 100 1 sW)).2.fileLen
          = sW.fileLen) :=
  ⟨⟨by decide, by decide⟩,
    c2_lifo_reuse 4096 1 1 0 1 oW oW initState sW 100 (by decide) (by decide)⟩

/-! ### C3: growth-failure handling -/

/-- C3 (amended): on a free-list miss, a failing seek or a failing
write makes `allocate` return `NULL` with no registry entry recorded;
a failing `mmap`, however, is not detected — `allocate` returns
`MAP_FAILED` (not `NULL`) and records a registry entry for it.  (The
unamended claim — that a mapping failure also surfaces as a failed
result with nothing recorded — is refuted by `c3_counterexample`.) -/
theorem c3_grow_failures (pz es n : Nat) (o : GrowOutcome) (s : ArenaState)
    (hmiss : alGetD s.free_blocks (roundedSize pz es n) [] = [])
    (hfail : o.seekOk = false ∨ o.writeOk = false ∨ o.mmapOk = false) :
    (allocate pz es n o s).1 =
      (if o.seekOk && o.writeOk then some MAP_FAILED else none) ∧
    (allocate pz es n o s).2.sizes =
      (if o.seekOk && o.writeOk then
        alSet s.sizes MAP_FAILED (roundedSize pz es n) else s.sizes) := by
  have h0 : (alGetD s.free_blocks (roundedSize pz es n) []).getLast? = none := by
    rw [hmiss]; rfl
  cases hs : o.seekOk with
  | false =>
      rw [allocate_miss_seek pz es n o s h0 hs]
      simp [hs]
  | true =>
      cases hw : o.writeOk with
      | false =>
          rw [allocate_miss_write pz es n o s h0 hs hw]
          simp [hs, hw]
      | true =>
          have hm : o.mmapOk = false := by
            rcases hfail with h | h | h
            · rw [hs] at h; exact absurd h (by simp)
            · rw [hw] at h; exact absurd h (by simp)
            · exact h
          rw [allocate_grow pz es n o s h0 hs hw]
          simp [hs, hw, hm]

/-- C3 counterexample: on a fresh state with `mmap` failing, `allocate`
does not return `NULL`, and it does record a new registry entry. -/
theorem c3_counterexample :
    (allocate 4096 1 1 oN initState).1 ≠ none ∧
      ¬ (allocate 4096 1 1 oN initState).2.sizes = initState.sizes := by
  decide

/-- Witness for `c3_grow_failures` at the mmap-failure outcome `oN`. -/
theorem c3_witness :
    (alGetD initState.free_blocks (roundedSize 4096 1 1) [] = [] ∧
      (oN.seekOk = false ∨ oN.writeOk = false ∨ oN.mmapOk = false)) ∧
      ((allocate 4096 1 1 oN initState).1 =
          (if oN.seekOk && oN.writeOk then some MAP_FAILED else none) ∧
        (allocate 4096 1 1 oN initState).2.sizes =
          (if oN.seekOk && oN.writeOk then
            alSet initState.sizes MAP_FAILED (roundedSize 4096 1 1)
          else initState.sizes)) :=
  ⟨⟨by decide, by decide⟩,
    c3_grow_failures 4096 1 1 oN initState (by decide) (by decide)⟩

/-! ### C6: shared state across copies, rebinds and the default handle -/

/-- Reading through one handle after writing through a handle with the
same references yields exactly the written arena state. -/
theorem readState_writeState {T U : Type} (a : Allocator T) (b : Allocator U)
    (hab : sameRefs a b) (s : ArenaState) (w : World) :
    readState b (writeState a s w) = s := by
  obtain ⟨hfd, hsr, hfr⟩ := hab
  cases s
  simp [readState, writeState, hfd, hsr, hfr, alGetD_alSet_self]

/-- A deallocation through one handle followed by a matching-size
allocation through any handle with the same references hands the same
address back. -/
theorem hcycle (pz es n m : Nat) (o : GrowOutcome) {T U : Type}
    (a : Allocator T) (b : Allocator U) (hab : sameRefs a b) (w : World)
    (p : Int) (hp : alGetD (readState a w).sizes p 0 = roundedSize pz es n) :
    (hAllocate pz es n o b (hDeallocate a p m w)).1 = some p := by
  show (allocate pz es n o
    (readState b (writeState a (deallocate p m (readState a w)) w))).1 = some p
  rw [readState_writeState a b hab]
  exact (cycle_hit pz es n m o p (readState a w) hp).1

/-- C6: a copied handle, a handle rebound to a different element type,
and a handle default-constructed while a default handle is active all
reference (do not clone) the same arena, size registry and free list
as the original, and mutations are visible across them: an address
deallocated via the original is returned by a matching-size allocate
via the copy, the rebound handle, or the default-constructed handle. -/
theorem c6_sharing {T U : Type} (a : Allocator T) (ps : ProcState)
    (d : Allocator Char) (hd : ps.defaultAllocator = some d)
    (pz es n m : Nat) (o : GrowOutcome) (w : World) (p q : Int)
    (hp : alGetD (readState a w).sizes p 0 = roundedSize pz es n)
    (hq : alGetD (readState d w).sizes q 0 = roundedSize pz es n) :
    sameRefs a (Allocator.copy a) ∧
    sameRefs a (Allocator.rebindTo U a) ∧
    (defaultCtor T ps = some (Allocator.rebindTo T d) ∧
      sameRefs d (Allocator.rebindTo T d)) ∧
    (hAllocate pz es n o (Allocator.copy a) (hDeallocate a p m w)).1
      = some p ∧
    (hAllocate pz es n o (Allocator.rebindTo U a) (hDeallocate a p m w)).1
      = some p ∧
    (hAllocate pz es n o (Allocator.rebindTo T d) (hDeallocate d q m w)).1
      = some q := by
  refine ⟨⟨rfl, rfl, rfl⟩, ⟨rfl, rfl, rfl⟩,
    ⟨by simp [defaultCtor, hd], ⟨rfl, rfl, rfl⟩⟩, ?_, ?_, ?_⟩
  · exact hcycle pz es n m o a (Allocator.copy a) ⟨rfl, rfl, rfl⟩ w p hp
  · exact hcycle pz es n m o a (Allocator.rebindTo U a) ⟨rfl, rfl, rfl⟩ w p hp
  · exact hcycle pz es n m o d (Allocator.rebindTo T d) ⟨rfl, rfl, rfl⟩ w q hq

/-- Witness for `c6_sharing` on the one-arena world `wW`. -/
theorem c6_witness :
    (psW.defaultAllocator = some dW ∧
      alGetD (readState aW wW).sizes 100 0 = roundedSize 4096 1 1 ∧
      alGetD (readState dW wW).sizes 100 0 = roundedSize 4096 1 1) ∧
      (sameRefs aW (Allocator.copy aW) ∧
        sameRefs aW (Allocator.rebindTo Char aW) ∧
        (defaultCtor Unit psW = some (Allocator.rebindTo Unit dW) ∧
          sameRefs dW (Allocator.rebindTo Unit dW)) ∧
        (hAllocate 4096 1 1 oW (Allocator.copy aW)
            (hDeallocate aW 100 0 wW)).1 = some 100 ∧
        (hAllocate 4096 1 1 oW (Allocator.rebindTo Char aW)
            (hDeallocate aW 100 0 wW)).1 = some 100 ∧
        (hAllocate 4096 1 1 oW (Allocator.rebindTo Unit dW)
            (hDeallocate dW 100 0 wW)).1 = some 100) :=
  ⟨⟨by decide, by decide, by decide⟩,
    c6_sharing aW psW dW (by decide) 4096 1 1 0 oW wW 100 100
      (by decide) (by decide)⟩

/-! ### C7: FreeDefault -/

/-- C7 (amended): with a default handle active, `FreeDefault` destroys
the default handle object (releasing its shared map references), but
it leaves every open file descriptor open and deletes no file from
disk.  (The unamended claim — that the underlying file descriptor is
closed — is refuted by `c7_counterexample`.) -/
theorem c7_teardown (ps : ProcState)
    (hinit : ps.defaultAllocator.isSome = true) :
    (FreeDefault ps).openFds = ps.openFds ∧
    (FreeDefault ps).diskFiles = ps.diskFiles ∧
    (FreeDefault ps).defaultAllocator = none :=
  ⟨rfl, rfl, rfl⟩

/-- C7 counterexample: after `SetDefault` opened descriptor 3,
`FreeDefault` leaves descriptor 3 open — the claim that the
descriptor is closed fails. -/
theorem c7_counterexample :
    psW.defaultAllocator.isSome = true ∧ (3 : Int) ∈ psW.openFds ∧
      (3 : Int) ∈ (FreeDefault psW).openFds := by decide

/-- Witness for `c7_teardown` at the initialised process state `psW`. -/
theorem c7_witness :
    psW.defaultAllocator.isSome = true ∧
      ((FreeDefault psW).openFds = psW.openFds ∧
        (FreeDefault psW).diskFiles = psW.diskFiles ∧
        (FreeDefault psW).defaultAllocator = none) :=
  ⟨by decide, c7_teardown psW (by decide)⟩

/-! ### C8, C9: reachability invariants -/

/-- One allocate/deallocate step preserves registry completeness. -/
theorem recorded_step (pz : Nat) (x y : ArenaState × List Int)
    (hstep : Step pz x y) (hx : Recorded x.1 x.2) : Recorded y.1 y.2 := by
  obtain ⟨hL, hF⟩ := hx
  cases hstep with
  | allocOk es n o s s' p L heq =>
      cases hv : (alGetD s.free_blocks (roundedSize pz es n) []).getLast? with
      | some addr =>
          rw [allocate_hit pz es n o s addr hv] at heq
          simp only [Prod.mk.injEq, Option.some.injEq] at heq
          obtain ⟨h1, h2⟩ := heq
          subst h2
          rw [h1] at hv
          constructor
          · intro q hq
            rcases List.mem_cons.mp hq with hq | hq
            · subst hq
              obtain ⟨vec0, hl, hm⟩ := alGetD_mem_of_mem s.free_blocks
                (roundedSize pz es n) q (getLast?_mem_list _ _ hv)
              exact hF (roundedSize pz es n, vec0) (alLookup_mem _ _ _ hl) q hm
            · exact hL q hq
          · intro kv hkv q hq
            rcases mem_alSet _ _ _ _ hkv with hkv1 | hkv1
            · subst hkv1
              have hq2 : q ∈ alGetD s.free_blocks (roundedSize pz es n) [] :=
                List.mem_of_mem_dropLast hq
              obtain ⟨vec0, hl, hm⟩ := alGetD_mem_of_mem _ _ _ hq2
              exact hF (roundedSize pz es n, vec0) (alLookup_mem _ _ _ hl) q hm
            · rcases mem_alSet _ _ _ _ hkv1 with hkv2 | hkv2
              · subst hkv2
                obtain ⟨vec0, hl, hm⟩ := alGetD_mem_of_mem _ _ _ hq
                exact hF (roundedSize pz es n, vec0) (alLookup_mem _ _ _ hl) q hm
              · exact hF kv hkv2 q hq
      | none =>
          cases hs : o.seekOk with
          | false =>
              rw [allocate_miss_seek pz es n o s hv hs] at heq
              simp at heq
          | true =>
              cases hw : o.writeOk with
              | false =>
                  rw [allocate_miss_write pz es n o s hv hs hw] at heq
                  simp at heq
              | true =>
                  rw [allocate_grow pz es n o s hv hs hw] at heq
                  simp only [Prod.mk.injEq, Option.some.injEq] at heq
                  obtain ⟨h1, h2⟩ := heq
                  subst h2
                  constructor
                  · intro q hq
                    rcases List.mem_cons.mp hq with hq | hq
                    · subst hq
                      rw [h1]
                      simp [alLookup_alSet_self]
                    · exact alLookup_isSome_alSet _ _ _ _ (hL q hq)
                  · intro kv hkv q hq
                    rcases mem_alSet _ _ _ _ hkv with hkv1 | hkv1
                    · subst hkv1
                      obtain ⟨vec0, hl, hm⟩ := alGetD_mem_of_mem _ _ _ hq
                      exact alLookup_isSome_alSet _ _ _ _
                        (hF (roundedSize pz es n, vec0)
                          (alLookup_mem _ _ _ hl) q hm)
                    · exact alLookup_isSome_alSet _ _ _ _ (hF kv hkv1 q hq)
  | allocFail es n o s s' L heq =>
      cases hv : (alGetD s.free_blocks (roundedSize pz es n) []).getLast? with
      | some addr =>
          rw [allocate_hit pz es n o s addr hv] at heq
          simp at heq
      | none =>
          have hrest : ∀ hs' : s' = { s with free_blocks :=
              (alSet s.free_blocks (roundedSize pz es n)
                (alGetD s.free_blocks (roundedSize pz es n) [])) },
              Recorded s' L := by
            intro hs'
            subst hs'
            constructor
            · exact hL
            · intro kv hkv q hq
              rcases mem_alSet _ _ _ _ hkv with hkv1 | hkv1
              · subst hkv1
                obtain ⟨vec0, hl, hm⟩ := alGetD_mem_of_mem _ _ _ hq
                exact hF (roundedSize pz es n, vec0) (alLookup_mem _ _ _ hl) q hm
              · exact hF kv hkv1 q hq
          cases hs : o.seekOk with
          | false =>
              rw [allocate_miss_seek pz es n o s hv hs] at heq
              simp only [Prod.mk.injEq] at heq
              exact hrest heq.2.symm
          | true =>
              cases hw : o.writeOk with
              | false =>
                  rw [allocate_miss_write pz es n o s hv hs hw] at heq
                  simp only [Prod.mk.injEq] at heq
                  exact hrest heq.2.symm
              | true =>
                  rw [allocate_grow pz es n o s hv hs hw] at heq
                  simp at heq
  | dealloc p0 n0 s L =>
      constructor
      · intro q hq
        have hq' : q ∈ L := List.mem_of_mem_filter hq
        exact alLookup_isSome_alSet _ _ _ _ (hL q hq')
      · intro kv hkv q hq
        rcases mem_alSet _ _ _ _ hkv with hkv1 | hkv1
        · subst hkv1
          rcases List.mem_append.mp hq with hq2 | hq2
          · obtain ⟨vec0, hl, hm⟩ := alGetD_mem_of_mem _ _ _ hq2
            exact alLookup_isSome_alSet _ _ _ _
              (hF (alGetD s.sizes p0 0, vec0) (alLookup_mem _ _ _ hl) q hm)
          · have hqp : q = p0 := by simpa using hq2
            subst hqp
            simp [deallocate, alLookup_alSet_self]
        · exact alLookup_isSome_alSet _ _ _ _ (hF kv hkv1 q hq)

/-- Every reachable state is registry-complete. -/
theorem reachable_recorded (pz : Nat) (x : ArenaState × List Int)
    (hr : Reachable pz x) : Recorded x.1 x.2 := by
  unfold Reachable at hr
  induction hr with
  | refl =>
      constructor
      · intro q hq; simp at hq
      · intro kv hkv; simp [initState] at hkv
  | tail hsteps hstep ih => exact recorded_step pz _ _ hstep ih

/-- C8: in every reachable state, every address returned by a
successful `allocate` and not yet deallocated has a size-registry
entry, so deallocating exactly that address finds its rounded size and
pushes the address onto the free-list bucket for that size. -/
theorem c8_registry_completeness (pz n : Nat) (s : ArenaState) (L : List Int)
    (p : Int) (hr : Reachable pz (s, L)) (hp : p ∈ L) :
    ∃ sz, alLookup s.sizes p = some sz ∧
      alGetD (deallocate p n s).free_blocks sz [] =
        alGetD s.free_blocks sz [] ++ [p] := by
  have hrec := reachable_recorded pz (s, L) hr
  have hs : (alLookup s.sizes p).isSome = true := hrec.1 p hp
  obtain ⟨sz, hsz⟩ : ∃ sz, alLookup s.sizes p = some sz := by
    cases hl : alLookup s.sizes p with
    | none => rw [hl] at hs; simp at hs
    | some v => exact ⟨v, rfl⟩
  refine ⟨sz, hsz, ?_⟩
  have ht : alGetD s.sizes p 0 = sz := by simp [alGetD, hsz]
  have hd : deallocate p n s =
      { fileLen := s.fileLen,
        sizes := (alSet s.sizes p sz),
        free_blocks := (alSet s.free_blocks sz
          (alGetD s.free_blocks sz [] ++ [p])) } := by
    simp only [deallocate, ht]
  rw [hd]
  exact alGetD_alSet_self _ _ _ _

/-- Witness for `c8_registry_completeness`: the state reached by one
fresh page-sized allocation, whose returned address 100 is live. -/
theorem c8_witness :
    Reachable 4096 (sW, [100]) ∧
      (∃ sz, alLookup sW.sizes 100 = some sz ∧
        alGetD (deallocate 100 0 sW).free_blocks sz [] =
          alGetD sW.free_blocks sz [] ++ [100]) := by
  have hreach : Reachable 4096 (sW, [100]) :=
    Relation.ReflTransGen.single
      (Step.allocOk 1 1 oW initState sW 100 [] (by decide))
  exact ⟨hreach,
    c8_registry_completeness 4096 0 sW [100] 100 hreach (by decide)⟩

/-- When the page size divides `2 ^ 64` (it is a power of two), every
rounded size is a multiple of the page size, wraparound included. -/
theorem dvd_roundedSize (pz es n : Nat) (hdvd : pz ∣ TWO64) :
    pz ∣ roundedSize pz es n := by
  unfold roundedSize
  by_cases h : n * es % TWO64 % pz = 0
  · rw [if_neg (not_not_intro h)]
    exact Nat.dvd_of_mod_eq_zero h
  · rw [if_pos h]
    exact (Nat.dvd_mod_iff hdvd).mpr (dvd_mul_left pz _)

/-- One allocate/deallocate step preserves page-multiple registry
entries. -/
theorem sizes_dvd_step (pz : Nat) (hdvd : pz ∣ TWO64)
    (x y : ArenaState × List Int) (hstep : Step pz x y)
    (hx : ∀ kv ∈ x.1.sizes, pz ∣ kv.2) : ∀ kv ∈ y.1.sizes, pz ∣ kv.2 := by
  cases hstep with
  | allocOk es n o s s' p L heq =>
      cases hv : (alGetD s.free_blocks (roundedSize pz es n) []).getLast? with
      | some addr =>
          rw [allocate_hit pz es n o s addr hv] at heq
          simp only [Prod.mk.injEq, Option.some.injEq] at heq
          obtain ⟨h1, h2⟩ := heq
          subst h2
          exact hx
      | none =>
          cases hs : o.seekOk with
          | false =>
              rw [allocate_miss_seek pz es n o s hv hs] at heq
              simp at heq
          | true =>
              cases hw : o.writeOk with
              | false =>
                  rw [allocate_miss_write pz es n o s hv hs hw] at heq
                  simp at heq
              | true =>
                  rw [allocate_grow pz es n o s hv hs hw] at heq
                  simp only [Prod.mk.injEq, Option.some.injEq] at heq
                  obtain ⟨h1, h2⟩ := heq
                  subst h2
                  intro kv hkv
                  rcases mem_alSet _ _ _ _ hkv with hkv1 | hkv1
                  · subst hkv1
                    exact dvd_roundedSize pz es n hdvd
                  · exact hx kv hkv1
  | allocFail es n o s s' L heq =>
      cases hv : (alGetD s.free_blocks (roundedSize pz es n) []).getLast? with
      | some addr =>
          rw [allocate_hit pz es n o s addr hv] at heq
          simp at heq
      | none =>
          cases hs : o.seekOk with
          | false =>
              rw [allocate_miss_seek pz es n o s hv hs] at heq
              simp only [Prod.mk.injEq] at heq
              rw [← heq.2]
              exact hx
          | true =>
              cases hw : o.writeOk with
              | false =>
                  rw [allocate_miss_write pz es n o s hv hs hw] at heq
                  simp only [Prod.mk.injEq] at heq
                  rw [← heq.2]
                  exact hx
              | true =>
                  rw [allocate_grow pz es n o s hv hs hw] at heq
                  simp at heq
  | dealloc p0 n0 s L =>
      intro kv hkv
      rcases mem_alSet _ _ _ _ hkv with hkv1 | hkv1
      · subst hkv1
        cases hl : alLookup s.sizes p0 with
        | none => simp [alGetD, hl]
        | some v =>
            have hv : alGetD s.sizes p0 0 = v := by simp [alGetD, hl]
            rw [hv]
            exact hx (p0, v) (alLookup_mem _ _ _ hl)
      · exact hx kv hkv1

/-- Every reachable registry entry is a page-size multiple. -/
theorem reachable_sizes_dvd (pz : Nat) (hdvd : pz ∣ TWO64)
    (x : ArenaState × List Int) (hr : Reachable pz x) :
    ∀ kv ∈ x.1.sizes, pz ∣ kv.2 := by
  unfold Reachable at hr
  induction hr with
  | refl => intro kv hkv; simp [initState] at hkv
  | tail hsteps hstep ih => exact sizes_dvd_step pz hdvd _ _ hstep ih

/-- C9 (amended): in every reachable state every block size recorded
in the size registry is an integer multiple of the page size — but not
necessarily a positive one.  (The unamended claim, positivity for
every element count including zero, is refuted by
`c9_counterexample`: a zero-byte request records size `0`.) -/
theorem c9_sizes_page_multiple (pz : Nat) (hdvd : pz ∣ TWO64)
    (s : ArenaState) (L : List Int) (hr : Reachable pz (s, L)) :
    ∀ kv ∈ s.sizes, pz ∣ kv.2 :=
  reachable_sizes_dvd pz hdvd (s, L) hr

/-- C9 counterexample: a reachable state (one page-sized allocation,
then a zero-element allocation whose `mmap` fails) holds the registry
entry `MAP_FAILED ↦ 0`, whose size is not positive. -/
theorem c9_counterexample :
    Reachable 4096 (sB, [-1, 100]) ∧ ((-1 : Int), 0) ∈ sB.sizes ∧
      ¬ ∀ kv ∈ sB.sizes, 0 < kv.2 := by
  refine ⟨?_, by decide, by decide⟩
  exact Relation.ReflTransGen.tail
    (Relation.ReflTransGen.single
      (Step.allocOk 1 1 oW initState sW 100 [] (by decide)))
    (Step.allocOk 1 0 oN sW sB (-1) [100] (by decide))

/-- Witness for `c9_sizes_page_multiple` after one allocation. -/
theorem c9_witness :
    ((4096 : Nat) ∣ TWO64 ∧ Reachable 4096 (sW, [100])) ∧
      ∀ kv ∈ sW.sizes, (4096 : Nat) ∣ kv.2 := by
  have hreach : Reachable 4096 (sW, [100]) :=
    Relation.ReflTransGen.single
      (Step.allocOk 1 1 oW initState sW 100 [] (by decide))
  exact ⟨⟨by decide, hreach⟩,
    c9_sizes_page_multiple 4096 (by decide) sW [100] hreach⟩
